import Mathlib

/-!
Verification development for the PhishGuard phishing-detection engine.

The definitions below are a shallow embedding of the JavaScript source:

* the background script (in popup.js after the separator): the constant
  tables RISK_THRESHOLDS, SUSPICIOUS_TLDS, SUSPICIOUS_PATTERNS and
  SECURITY_TERMS, the functions analyzeUrl, checkBrowserHistory and
  analyzeUrlWithHistory;
* the content script: analyzePageContent (urgency phrases and brand
  impersonation detection).

Strings are modelled as List Char (JavaScript strings of ASCII text).
The platform URL parser (the JavaScript URL constructor) is not part of
the repository; a URL input is therefore modelled as the raw character
list together with the parser's outcome: none when the constructor
throws, or some record with the hostname and pathname it produced.
JavaScript numbers appearing here are integers throughout (scores,
visit counts, millisecond timestamps), so they are modelled as Nat/Int;
Math.floor of a quotient of integers is Int.fdiv.  The in-place
mutation that analyzeUrlWithHistory performs on its base result
(baseAnalysis.issues.push) is modelled by explicit state passing: the
aggregation step returns both the post-call state of the base
ScoreResult and the assessment object it builds.
-/

/-- List-of-characters version of the JavaScript substring test
a.includes(b): true when needle occurs contiguously in hay. -/
def includesSub (hay needle : List Char) : Bool :=
  match hay with
  | [] => needle.isEmpty
  | c :: t => needle.isPrefixOf (c :: t) || includesSub t needle

/-- Lower-case every character, the model of String.prototype.toLowerCase
on the ASCII strings this program handles. -/
def lowerList (l : List Char) : List Char :=
  l.map Char.toLower

/-- Split on the dot character, the model of s.split('.') for a
non-empty single-character separator: splitting the empty string gives
one empty group, and every dot starts a new group. -/
def splitOnDot : List Char → List (List Char)
  | [] => [[]]
  | c :: t =>
    if c = '.' then [] :: splitOnDot t
    else
      match splitOnDot t with
      | [] => [[c]]
      | g :: gs => (c :: g) :: gs

/-- Inverse of splitOnDot: interleave the groups with dots. -/
def joinDots : List (List Char) → List Char
  | [] => []
  | [g] => g
  | g1 :: g2 :: gs => g1 ++ '.' :: joinDots (g2 :: gs)

/-- True when the list contains a run of at least five consecutive
decimal digits: the test of the regular expression /\d\x7b5,\x7d/. -/
def hasDigitRun : List Char → Bool
  | [] => false
  | c :: t =>
    (decide (5 ≤ (c :: t).length) && ((c :: t).take 5).all Char.isDigit) || hasDigitRun t

/-- The four risk levels of the engine. -/
inductive RiskLevel where
  | SAFE
  | LOW
  | MEDIUM
  | HIGH
  deriving DecidableEq

/-- Numeric severity of a risk level, used to state monotonicity. -/
def RiskLevel.rank : RiskLevel → Nat
  | .SAFE => 0
  | .LOW => 1
  | .MEDIUM => 2
  | .HIGH => 3

/-- Shape of the RISK_THRESHOLDS constant object. -/
structure RiskThresholds where
  LOW : Int
  MEDIUM : Int
  HIGH : Int

/-- Score thresholds for risk levels, from the background script. -/
def RISK_THRESHOLDS : RiskThresholds :=
  { LOW := 30, MEDIUM := 60, HIGH := 80 }

/-- Risk-level mapping as written inside analyzeUrl. -/
def riskLevelAnalyze (score : Int) : RiskLevel :=
  if RISK_THRESHOLDS.HIGH ≤ score then .HIGH
  else if RISK_THRESHOLDS.MEDIUM ≤ score then .MEDIUM
  else if RISK_THRESHOLDS.LOW ≤ score then .LOW
  else .SAFE

/-- Risk-level mapping as written (a second time) inside
analyzeUrlWithHistory; textually the same cascade of comparisons. -/
def riskLevelHistory (score : Int) : RiskLevel :=
  if RISK_THRESHOLDS.HIGH ≤ score then .HIGH
  else if RISK_THRESHOLDS.MEDIUM ≤ score then .MEDIUM
  else if RISK_THRESHOLDS.LOW ≤ score then .LOW
  else .SAFE

/-- Suspicious TLDs often used in phishing attacks. -/
def SUSPICIOUS_TLDS : List (List Char) :=
  ["xyz".data, "top".data, "tk".data, "ml".data, "ga".data, "cf".data,
   "gq".data, "info".data, "online".data, "site".data, "club".data, "xin".data]

/-- One entry of the SUSPICIOUS_PATTERNS table: either a literal
substring regex such as /secure/, the five-consecutive-digits regex, or
the anchored long-alphanumeric regex. -/
inductive UrlPattern where
  | lit (s : List Char)
  | fiveDigits
  | longAlphanum
  deriving DecidableEq

/-- Whether a pattern matches a string, the model of pattern.test(s). -/
def UrlPattern.testOn : UrlPattern → List Char → Bool
  | .lit s, t => includesSub t s
  | .fiveDigits, t => hasDigitRun t
  | .longAlphanum, t => decide (25 ≤ t.length) && t.all Char.isAlphanum

/-- Source text of a pattern, as JavaScript prints a RegExp value when
it is interpolated into the issue string. -/
def UrlPattern.display : UrlPattern → String
  | .lit s => "/" ++ String.mk s ++ "/"
  | .fiveDigits => "/\\d\x7b5,\x7d/"
  | .longAlphanum => "/^[a-zA-Z0-9]\x7b25,\x7d$/"

/-- Patterns commonly found in phishing URLs, in source order. -/
def SUSPICIOUS_PATTERNS : List UrlPattern :=
  [.lit "secure".data, .lit "login".data, .lit "signin".data, .lit "verify".data,
   .lit "account".data, .lit "update".data, .lit "confirm".data, .lit "banking".data,
   .lit "paypal".data, .lit "apple".data, .lit "microsoft".data, .lit "google".data,
   .lit "facebook".data, .lit "amazon".data, .lit "netflix".data,
   .fiveDigits, .longAlphanum]

/-- Common security terms used to create a fake sense of security. -/
def SECURITY_TERMS : List (List Char) :=
  ["secure".data, "security".data, "authenticate".data, "verification".data,
   "confirm".data, "validate".data, "wallet".data]

/-- Dotted-quad test of analyzeUrl: the anchored regular expression
matching four dot-separated groups of one to three decimal digits. -/
def digitGroupB (g : List Char) : Bool :=
  decide (1 ≤ g.length) && decide (g.length ≤ 3) && g.all Char.isDigit

/-- Host-is-an-IP-address test: the regex
/^\d\x7b1,3\x7d\.\d\x7b1,3\x7d\.\d\x7b1,3\x7d\.\d\x7b1,3\x7d$/ applied to the hostname. -/
def isIpHost (domain : List Char) : Bool :=
  match splitOnDot domain with
  | [g1, g2, g3, g4] => digitGroupB g1 && digitGroupB g2 && digitGroupB g3 && digitGroupB g4
  | _ => false

/-- Modelled from the spec (claim-side characterisation): a group of one
to three decimal digits with no range restriction on its value. -/
def DigitGroup (g : List Char) : Prop :=
  1 ≤ g.length ∧ g.length ≤ 3 ∧ ∀ c ∈ g, c.isDigit = true

/-- Modelled from the spec (claim-side characterisation): a host of the
textual form d.d.d.d where each d is one to three decimal digits. -/
def IpShape (h : List Char) : Prop :=
  ∃ g1 g2 g3 g4, h = g1 ++ '.' :: (g2 ++ '.' :: (g3 ++ '.' :: g4)) ∧
    DigitGroup g1 ∧ DigitGroup g2 ∧ DigitGroup g3 ∧ DigitGroup g4

/-- Hostname and pathname produced by the platform URL parser. -/
structure UrlParts where
  hostname : List Char
  pathname : List Char
  deriving DecidableEq

/-- A URL input to analyzeUrl: the raw string together with the outcome
of the URL constructor (none when the constructor throws). -/
structure UrlInput where
  raw : List Char
  parsed : Option UrlParts
  deriving DecidableEq

/-- Result of analyzeUrl: score, ordered issue list and risk level. -/
structure ScoreResult where
  score : Nat
  issues : List String
  riskLevel : RiskLevel
  deriving DecidableEq

/-- The issue string of the IP-address indicator. -/
def ipIssue : String := "IP address used as hostname"

/-- Last dot-segment of the hostname, lower-cased:
domain.split('.').pop().toLowerCase(). -/
def tldOf (domain : List Char) : List Char :=
  lowerList ((splitOnDot domain).getLast?.getD [])

/-- Patterns of the catalog that match the domain or the path. -/
def patHits (domain path : List Char) : List UrlPattern :=
  SUSPICIOUS_PATTERNS.filter fun p => p.testOn domain || p.testOn path

/-- Security terms contained in the domain. -/
def termHits (domain : List Char) : List (List Char) :=
  SECURITY_TERMS.filter fun t => includesSub domain t

/-- Issue of the IP-address check of analyzeUrl. -/
def ipIssues (domain : List Char) : List String :=
  if isIpHost domain then [ipIssue] else []

/-- Issue of the suspicious-TLD check of analyzeUrl. -/
def tldIssues (domain : List Char) : List String :=
  if SUSPICIOUS_TLDS.contains (tldOf domain) then
    ["Suspicious TLD: ." ++ String.mk (tldOf domain)]
  else []

/-- Issue of the domain-length check of analyzeUrl. -/
def lengthIssues (domain : List Char) : List String :=
  if 30 < domain.length then ["Unusually long domain name"] else []

/-- Issue of the subdomain-count check of analyzeUrl; the count is the
number of dot-segments minus two, as a JavaScript (signed) number. -/
def subdomainIssues (domain : List Char) : List String :=
  if 3 < ((splitOnDot domain).length : Int) - 2 then
    ["Excessive number of subdomains"]
  else []

/-- Issue of the hyphen-count check of analyzeUrl. -/
def hyphenIssues (domain : List Char) : List String :=
  if 1 < domain.count '-' then ["Multiple hyphens in domain"] else []

/-- Issues of the suspicious-pattern loop of analyzeUrl, in table order. -/
def patternIssues (domain path : List Char) : List String :=
  (patHits domain path).map fun p => "Suspicious pattern detected: " ++ p.display

/-- Issues of the security-term loop of analyzeUrl, in table order. -/
def termIssues (domain : List Char) : List String :=
  (termHits domain).map fun t => "Security term in domain: \"" ++ String.mk t ++ "\""

/-- Issue of the encoded-character check of analyzeUrl. -/
def encodedIssues (raw : List Char) : List String :=
  if raw.contains '%' then ["URL contains encoded characters"] else []

/-- Score accumulated by analyzeUrl on a successfully parsed URL: the
sum of the contributions of the independent additive checks, in source
order (each `score += w` guarded by its condition). -/
def parsedScore (raw : List Char) (p : UrlParts) : Nat :=
  (if isIpHost p.hostname then 40 else 0) +
  (if SUSPICIOUS_TLDS.contains (tldOf p.hostname) then 15 else 0) +
  (if 30 < p.hostname.length then 15 else 0) +
  (if 3 < ((splitOnDot p.hostname).length : Int) - 2 then 15 else 0) +
  (if 1 < p.hostname.count '-' then 10 else 0) +
  10 * (patHits p.hostname p.pathname).length +
  5 * (termHits p.hostname).length +
  (if raw.contains '%' then 10 else 0)

/-- Issues pushed by analyzeUrl on a successfully parsed URL, in the
order the source pushes them. -/
def parsedIssues (raw : List Char) (p : UrlParts) : List String :=
  ipIssues p.hostname ++ tldIssues p.hostname ++ lengthIssues p.hostname ++
  subdomainIssues p.hostname ++ hyphenIssues p.hostname ++
  patternIssues p.hostname p.pathname ++ termIssues p.hostname ++ encodedIssues raw

/-- Embedding of analyzeUrl.  When the URL constructor throws, the catch
block yields score 20 and the single issue "Malformed URL"; otherwise
the additive checks run and the risk level is derived from the score.
The Lean function is total: no exception can reach the caller. -/
def analyzeUrl (u : UrlInput) : ScoreResult :=
  match u.parsed with
  | none =>
    { score := 20, issues := ["Malformed URL"], riskLevel := riskLevelAnalyze 20 }
  | some p =>
    { score := parsedScore u.raw p,
      issues := parsedIssues u.raw p,
      riskLevel := riskLevelAnalyze (parsedScore u.raw p) }

/-- Visit statistics for a domain, as produced by checkBrowserHistory
and consumed by analyzeUrlWithHistory. -/
structure FamiliaritySnapshot where
  familiar : Bool
  firstVisit : Bool
  visitCount : Nat
  daysSinceLastVisit : Int
  familiarityScore : Int
  error : Bool
  deriving DecidableEq

/-- Domain comparison used when filtering history items: exact hostname
equality, or one hostname is a dot-delimited suffix of the other. -/
def domainMatch (itemDomain domain : List Char) : Bool :=
  itemDomain == domain || List.isSuffixOf ('.' :: domain) itemDomain ||
    List.isSuffixOf ('.' :: itemDomain) domain

/-- One browser-history item: the hostname its URL parses to (none when
the URL constructor throws on it) and its last visit time in
milliseconds. -/
structure HistoryItem where
  host : Option (List Char)
  lastVisitTime : Int
  deriving DecidableEq

/-- The exactDomainMatches filter of checkBrowserHistory: items whose
URL parses and whose hostname matches the domain; items with invalid
URLs are skipped. -/
def matchingItems (domain : List Char) (items : List HistoryItem) : List HistoryItem :=
  items.filter fun it =>
    match it.host with
    | some h => domainMatch h domain
    | none => false

/-- Embedding of checkBrowserHistory, given the domain, the history
items returned by the platform query, and the current time in
milliseconds.  Covers the non-throwing path of the source; the catch
block for a failed platform lookup has no counterpart because the pure
model cannot fail. -/
def checkBrowserHistory (domain : List Char) (items : List HistoryItem)
    (now : Int) : FamiliaritySnapshot :=
  match matchingItems domain items with
  | [] =>
    { familiar := false, firstVisit := true, visitCount := 0,
      daysSinceLastVisit := 0, familiarityScore := 0, error := false }
  | m :: ms =>
    let mostRecentVisit := ms.foldl (fun acc it => max acc it.lastVisitTime) m.lastVisitTime
    let daysSinceLastVisit := (now - mostRecentVisit).fdiv 86400000
    let visitCount := min (m :: ms).length 20
    let recencyScore : Int :=
      if daysSinceLastVisit = 0 then 60 else max (60 - daysSinceLastVisit * 2) 0
    { familiar := true, firstVisit := false, visitCount := (m :: ms).length,
      daysSinceLastVisit := daysSinceLastVisit,
      familiarityScore := (visitCount : Int) * 2 + recencyScore, error := false }

/-- Final assessment returned by analyzeUrlWithHistory. -/
structure RiskAssessment where
  score : Int
  issues : List String
  riskLevel : RiskLevel
  familiarity : FamiliaritySnapshot
  deriving DecidableEq

/-- Issues pushed onto the base result by the adjustment step of
analyzeUrlWithHistory. -/
def famIssues (fam : FamiliaritySnapshot) : List String :=
  if fam.firstVisit then ["First visit to this domain"]
  else if 70 < fam.familiarityScore then
    ["Frequently visited site (" ++ toString fam.visitCount ++ " visits)"]
  else []

/-- Score after the familiarity adjustment of analyzeUrlWithHistory. -/
def adjustedScore (base : ScoreResult) (fam : FamiliaritySnapshot) : Int :=
  if fam.firstVisit then (base.score : Int) + 90
  else max ((base.score : Int) - fam.familiarityScore.fdiv 4) 0

/-- Aggregation step of analyzeUrlWithHistory.  The source pushes the
familiarity issues onto baseAnalysis.issues in place and then spreads
baseAnalysis into the returned object, overriding score and riskLevel;
the first component is the post-call state of the base ScoreResult and
the second is the returned assessment (whose issue sequence is the
base's post-push sequence). -/
def aggregate (base : ScoreResult) (fam : FamiliaritySnapshot) :
    ScoreResult × RiskAssessment :=
  let issues := base.issues ++ famIssues fam
  let adj := adjustedScore base fam
  ({ base with issues := issues },
   { score := adj, issues := issues, riskLevel := riskLevelHistory adj,
     familiarity := fam })

/-- Embedding of analyzeUrlWithHistory, with the familiarity snapshot
(the awaited result of checkBrowserHistory on the same URL) supplied as
an input. -/
def analyzeUrlWithHistory (u : UrlInput) (fam : FamiliaritySnapshot) : RiskAssessment :=
  (aggregate (analyzeUrl u) fam).2

/-- One page image as seen by the content script: alt text and source. -/
structure PageImage where
  alt : List Char
  src : List Char
  deriving DecidableEq

/-- Urgency phrases of the content script, in source order. -/
def urgencyPhrases : List (List Char) :=
  ["act now".data, "urgent".data, "immediately".data, "alert".data,
   "attention".data, "important".data, "limited time".data, "expire".data,
   "suspended".data, "verify now".data, "verify your account".data,
   "unusual activity".data, "suspicious activity".data, "security alert".data]

/-- Commonly impersonated brands, in source order. -/
def commonBrands : List (List Char) :=
  ["paypal".data, "apple".data, "microsoft".data, "google".data,
   "facebook".data, "amazon".data, "bank of america".data, "chase".data,
   "wells fargo".data, "citi".data, "netflix".data]

/-- Brand names collected from image alt text or image source, in the
source's nested loop order (images outer, brands inner), duplicates
preserved. -/
def brandLogosFound (images : List PageImage) : List (List Char) :=
  images.flatMap fun img =>
    commonBrands.filter fun brand =>
      includesSub (lowerList img.alt) brand || includesSub (lowerList img.src) brand

/-- Model of the JavaScript brand.replace(' ', ''): a string-pattern
replace removes only the FIRST occurrence of the space. -/
def replaceFirstSpace : List Char → List Char
  | [] => []
  | c :: t => if c = ' ' then t else c :: replaceFirstSpace t

/-- Model of array.join(', '). -/
def joinCommaSep : List (List Char) → List Char
  | [] => []
  | [x] => x
  | x :: y :: t => x ++ ", ".data ++ joinCommaSep (y :: t)

/-- Urgency phrases contained in the lower-cased page text. -/
def urgencyHits (pageText : List Char) : List (List Char) :=
  urgencyPhrases.filter fun phr => includesSub (lowerList pageText) phr

/-- Result record of analyzePageContent.  The suspiciousText and
poorSpellingGrammar flags are initialised false and never written by
the source. -/
structure ContentAnalysis where
  suspiciousText : Bool
  brandImpersonation : Bool
  poorSpellingGrammar : Bool
  urgencyLanguage : Bool
  issues : List String
  deriving DecidableEq

/-- Embedding of analyzePageContent from the content script, taking the
page's visible text, its images and its hostname as pre-extracted
inputs. -/
def analyzePageContent (pageText : List Char) (images : List PageImage)
    (hostname : List Char) : ContentAnalysis :=
  let urgHits := urgencyHits pageText
  let found := brandLogosFound images
  let domain := lowerList hostname
  let brandInDomain := found.any fun brand => includesSub domain (replaceFirstSpace brand)
  let imp : Bool := decide (0 < found.length) && !brandInDomain
  { suspiciousText := false,
    brandImpersonation := imp,
    poorSpellingGrammar := false,
    urgencyLanguage := decide (0 < urgHits.length),
    issues :=
      (urgHits.map fun phr => "Urgency language: \"" ++ String.mk phr ++ "\"") ++
      (if imp then ["Potential impersonation of: " ++ String.mk (joinCommaSep found)]
       else []) }

/-- Scenario input: the URL http://192.168.1.1/login, which the platform
parser splits into hostname 192.168.1.1 and pathname /login. -/
def scenario1Url : UrlInput :=
  { raw := "http://192.168.1.1/login".data,
    parsed := some { hostname := "192.168.1.1".data, pathname := "/login".data } }

/-- Scenario input: a URL with host paypal-secure-login.xyz and root
pathname. -/
def scenario5Url : UrlInput :=
  { raw := "http://paypal-secure-login.xyz/".data,
    parsed := some { hostname := "paypal-secure-login.xyz".data, pathname := "/".data } }

/-- Scenario input: a URL with the numerically invalid dotted quad
999.999.999.999 as hostname. -/
def scenario999Url : UrlInput :=
  { raw := "http://999.999.999.999/".data,
    parsed := some { hostname := "999.999.999.999".data, pathname := "/".data } }

/-- A first-visit familiarity snapshot (what checkBrowserHistory returns
when no history item matches). -/
def famFirstVisit : FamiliaritySnapshot :=
  { familiar := false, firstVisit := true, visitCount := 0,
    daysSinceLastVisit := 0, familiarityScore := 0, error := false }

/-- A familiar-site snapshot with familiarity score 80 after 12 visits. -/
def famFrequent : FamiliaritySnapshot :=
  { familiar := true, firstVisit := false, visitCount := 12,
    daysSinceLastVisit := 0, familiarityScore := 80, error := false }

/-- An empty base score result. -/
def baseEmpty : ScoreResult :=
  { score := 0, issues := [], riskLevel := RiskLevel.SAFE }

/-- Content-script scenario input: a single image whose alt text names
Bank of America. -/
def bofaImage : PageImage :=
  { alt := "Bank of America".data, src := [] }

example : (analyzeUrl scenario1Url).score = 50 := by decide

example : (analyzeUrl scenario5Url).score = 60 := by decide

example : isIpHost "999.999.999.999".data = true := by decide

/-- History scenario input: the domain example.com. -/
def exampleDomain : List Char := "example.com".data

/-- History scenario input: one matching visit to example.com at time 0. -/
def exampleItems : List HistoryItem :=
  [{ host := some "example.com".data, lastVisitTime := 0 }]

/-- C1: the risk-level mapping selects exactly one level per score band
(HIGH iff 80 ≤ s, MEDIUM iff 60 ≤ s < 80, LOW iff 30 ≤ s < 60, SAFE iff
s < 30), is non-decreasing in the score, is the same mapping in
analyzeUrl and in analyzeUrlWithHistory, and both functions derive their
risk level by applying it to their own numeric score only. -/
theorem risk_level_mapping_c1 :
    (∀ s : Int,
      (riskLevelAnalyze s = RiskLevel.HIGH ↔ 80 ≤ s) ∧
      (riskLevelAnalyze s = RiskLevel.MEDIUM ↔ 60 ≤ s ∧ s < 80) ∧
      (riskLevelAnalyze s = RiskLevel.LOW ↔ 30 ≤ s ∧ s < 60) ∧
      (riskLevelAnalyze s = RiskLevel.SAFE ↔ s < 30)) ∧
    (∀ s t : Int, s ≤ t → (riskLevelAnalyze s).rank ≤ (riskLevelAnalyze t).rank) ∧
    (∀ s : Int, riskLevelAnalyze s = riskLevelHistory s) ∧
    (∀ u : UrlInput, (analyzeUrl u).riskLevel = riskLevelAnalyze ((analyzeUrl u).score : Int)) ∧
    (∀ (u : UrlInput) (fam : FamiliaritySnapshot),
      (analyzeUrlWithHistory u fam).riskLevel =
        riskLevelHistory ((analyzeUrlWithHistory u fam).score)) := by
  refine ⟨?_, ?_, ?_, ?_, ?_⟩
  · intro s
    unfold riskLevelAnalyze RISK_THRESHOLDS
    refine ⟨?_, ?_, ?_, ?_⟩ <;> split_ifs <;> simp_all <;> omega
  · intro s t hst
    unfold riskLevelAnalyze RISK_THRESHOLDS
    split_ifs <;> simp [RiskLevel.rank] <;> omega
  · intro s
    rfl
  · intro u
    rcases u with ⟨raw, parsed⟩
    cases parsed <;> rfl
  · intro u fam
    rfl

/-- Witness for risk_level_mapping_c1 at concrete scores. -/
theorem risk_level_mapping_c1_witness :
    riskLevelAnalyze 85 = RiskLevel.HIGH ∧
    (riskLevelAnalyze 30).rank ≤ (riskLevelAnalyze 75).rank :=
  ⟨(risk_level_mapping_c1.1 85).1.mpr (by decide),
   risk_level_mapping_c1.2.1 30 75 (by decide)⟩

/-- C2: on every input whose URL parse fails, analyzeUrl returns score
exactly 20 and the single issue "Malformed URL" (the Lean embedding is
a total function, mirroring that the source catches the parse exception
instead of propagating it). -/
theorem malformed_url_soft_failure_c2 (raw : List Char) :
    analyzeUrl { raw := raw, parsed := none } =
      { score := 20, issues := ["Malformed URL"], riskLevel := RiskLevel.SAFE } := rfl

/-- C3: with firstVisit true the aggregated score is the base score plus
90 and the first-visit issue is appended; otherwise it is
max(base − floor(familiarityScore / 4), 0), the reduction lies in
[0, 25] whenever the familiarity score lies in [0, 100], and the
frequently-visited issue is appended exactly when the familiarity score
exceeds 70. -/
theorem familiarity_adjustment_c3 (base : ScoreResult) (fam : FamiliaritySnapshot) :
    (fam.firstVisit = true →
      (aggregate base fam).2.score = (base.score : Int) + 90 ∧
      (aggregate base fam).2.issues = base.issues ++ ["First visit to this domain"]) ∧
    (fam.firstVisit = false →
      (aggregate base fam).2.score =
        max ((base.score : Int) - fam.familiarityScore.fdiv 4) 0 ∧
      (0 ≤ fam.familiarityScore → fam.familiarityScore ≤ 100 →
        0 ≤ fam.familiarityScore.fdiv 4 ∧ fam.familiarityScore.fdiv 4 ≤ 25) ∧
      (70 < fam.familiarityScore →
        (aggregate base fam).2.issues =
          base.issues ++
            ["Frequently visited site (" ++ toString fam.visitCount ++ " visits)"]) ∧
      (fam.familiarityScore ≤ 70 →
        (aggregate base fam).2.issues = base.issues)) := by
  constructor
  · intro h
    constructor
    · simp [aggregate, adjustedScore, h]
    · simp [aggregate, famIssues, h]
  · intro h
    refine ⟨?_, ?_, ?_, ?_⟩
    · simp [aggregate, adjustedScore, h]
    · intro h0 h100
      have he : fam.familiarityScore.fdiv 4 = fam.familiarityScore / 4 :=
        Int.fdiv_eq_ediv _ (by norm_num)
      rw [he]
      omega
    · intro h70
      simp [aggregate, famIssues, h, h70]
    · intro h70
      have hn : ¬ (70 < fam.familiarityScore) := by omega
      simp [aggregate, famIssues, h, hn]

/-- Witness for familiarity_adjustment_c3 at concrete snapshots, one per
branch of the adjustment. -/
theorem familiarity_adjustment_c3_witness :
    (aggregate baseEmpty famFirstVisit).2.score = (baseEmpty.score : Int) + 90 ∧
    (aggregate baseEmpty famFrequent).2.score =
      max ((baseEmpty.score : Int) - famFrequent.familiarityScore.fdiv 4) 0 ∧
    (aggregate baseEmpty famFrequent).2.issues =
      baseEmpty.issues ++
        ["Frequently visited site (" ++ toString famFrequent.visitCount ++ " visits)"] :=
  ⟨((familiarity_adjustment_c3 baseEmpty famFirstVisit).1 rfl).1,
   ((familiarity_adjustment_c3 baseEmpty famFrequent).2 rfl).1,
   ((familiarity_adjustment_c3 baseEmpty famFrequent).2 rfl).2.2.1 (by decide)⟩

/-- C7 counterexample: aggregating an empty base result with a
first-visit snapshot changes the base result's issue sequence (the
source pushes onto baseAnalysis.issues in place), so the base is not
left unchanged as claimed. -/
theorem score_result_mutated_cex_c7 :
    (aggregate baseEmpty famFirstVisit).1.issues ≠ baseEmpty.issues := by decide

/-- C7 amended: aggregation leaves the base result's score and risk
level unchanged but appends the familiarity issues to the base result's
issue list in place, and the returned assessment's issue sequence is
exactly that updated list (shared, not an independent copy). -/
theorem aggregate_frame_c7 (base : ScoreResult) (fam : FamiliaritySnapshot) :
    (aggregate base fam).1.score = base.score ∧
    (aggregate base fam).1.riskLevel = base.riskLevel ∧
    (aggregate base fam).1.issues = base.issues ++ famIssues fam ∧
    (aggregate base fam).2.issues = (aggregate base fam).1.issues ∧
    (aggregate base fam).2.score = adjustedScore base fam ∧
    (aggregate base fam).2.familiarity = fam :=
  ⟨rfl, rfl, rfl, rfl, rfl, rfl⟩

/-- Splitting never yields an empty group list. -/
theorem splitOnDot_ne_nil (l : List Char) : splitOnDot l ≠ [] := by
  cases l with
  | nil => simp [splitOnDot]
  | cons c t =>
    simp only [splitOnDot]
    split
    · simp
    · split <;> simp

/-- Joining a list whose head group gained a character prepends that
character to the join of the original list. -/
theorem joinDots_cons_cons (c : Char) (g : List Char) (gs : List (List Char)) :
    joinDots ((c :: g) :: gs) = c :: joinDots (g :: gs) := by
  cases gs <;> simp [joinDots]

/-- joinDots is a left inverse of splitOnDot. -/
theorem joinDots_splitOnDot (l : List Char) : joinDots (splitOnDot l) = l := by
  induction l with
  | nil => rfl
  | cons c t ih =>
    simp only [splitOnDot]
    split
    · next hc =>
      obtain ⟨g, gs, hgs⟩ := List.exists_cons_of_ne_nil (splitOnDot_ne_nil t)
      rw [hgs] at ih ⊢
      subst hc
      simpa [joinDots] using ih
    · next hc =>
      obtain ⟨g, gs, hgs⟩ := List.exists_cons_of_ne_nil (splitOnDot_ne_nil t)
      rw [hgs] at ih ⊢
      show joinDots ((c :: g) :: gs) = c :: t
      rw [joinDots_cons_cons, ih]

/-- No group produced by splitOnDot contains a dot. -/
theorem not_dot_mem_splitOnDot (l : List Char) :
    ∀ g ∈ splitOnDot l, '.' ∉ g := by
  induction l with
  | nil =>
    intro g hg
    simp only [splitOnDot, List.mem_singleton] at hg
    simp [hg]
  | cons c t ih =>
    intro g hg
    simp only [splitOnDot] at hg
    by_cases hc : c = '.'
    · rw [if_pos hc] at hg
      rcases List.mem_cons.mp hg with h | h
      · simp [h]
      · exact ih g h
    · rw [if_neg hc] at hg
      obtain ⟨g0, gs, hgs⟩ := List.exists_cons_of_ne_nil (splitOnDot_ne_nil t)
      rw [hgs] at hg
      have hg0 : g0 ∈ splitOnDot t := by
        rw [hgs]; exact List.mem_cons_self g0 gs
      rcases List.mem_cons.mp hg with h | h
      · subst h
        intro hdot
        rcases List.mem_cons.mp hdot with h2 | h2
        · exact hc h2.symm
        · exact ih g0 hg0 h2
      · have : g ∈ splitOnDot t := by
          rw [hgs]; exact List.mem_cons_of_mem g0 h
        exact ih g this

/-- Splitting a dot-free list yields that single group. -/
theorem splitOnDot_no_dot (a : List Char) (h : '.' ∉ a) : splitOnDot a = [a] := by
  induction a with
  | nil => rfl
  | cons c t ih =>
    have hc : ¬ (c = '.') := fun e => h (by simp [e])
    have ht : '.' ∉ t := fun m => h (List.mem_cons_of_mem _ m)
    simp only [splitOnDot, if_neg hc, ih ht]

/-- Splitting a list that starts with a dot-free block followed by a dot
peels off that block as the first group. -/
theorem splitOnDot_append_dot (a rest : List Char) (h : '.' ∉ a) :
    splitOnDot (a ++ '.' :: rest) = a :: splitOnDot rest := by
  induction a with
  | nil => simp [splitOnDot]
  | cons c t ih =>
    have hc : ¬ (c = '.') := fun e => h (by simp [e])
    have ht : '.' ∉ t := fun m => h (List.mem_cons_of_mem _ m)
    show splitOnDot (c :: (t ++ '.' :: rest)) = (c :: t) :: splitOnDot rest
    simp only [splitOnDot, if_neg hc]
    rw [ih ht]

/-- A group of digits contains no dot. -/
theorem digitGroup_no_dot (g : List Char) (h : DigitGroup g) : '.' ∉ g := by
  intro m
  have hd := h.2.2 '.' m
  exact absurd hd (by decide)

/-- The dotted-quad regex holds exactly on hosts of the textual shape
described by IpShape. -/
theorem isIpHost_iff_ipShape (h : List Char) : isIpHost h = true ↔ IpShape h := by
  constructor
  · intro hip
    unfold isIpHost at hip
    split at hip
    · next g1 g2 g3 g4 heq =>
      simp only [digitGroupB, Bool.and_eq_true, decide_eq_true_eq,
        List.all_eq_true] at hip
      obtain ⟨⟨⟨⟨⟨h11, h12⟩, h13⟩, ⟨⟨h21, h22⟩, h23⟩⟩, ⟨⟨h31, h32⟩, h33⟩⟩,
        ⟨⟨h41, h42⟩, h43⟩⟩ := hip
      refine ⟨g1, g2, g3, g4, ?_, ⟨h11, h12, h13⟩, ⟨h21, h22, h23⟩,
        ⟨h31, h32, h33⟩, ⟨h41, h42, h43⟩⟩
      have hj := joinDots_splitOnDot h
      rw [heq] at hj
      have hdef : joinDots [g1, g2, g3, g4] =
          g1 ++ '.' :: (g2 ++ '.' :: (g3 ++ '.' :: g4)) := rfl
      rw [hdef] at hj
      exact hj.symm
    · next =>
      exact absurd hip (by simp)
  · rintro ⟨g1, g2, g3, g4, rfl, h1, h2, h3, h4⟩
    have e : splitOnDot (g1 ++ '.' :: (g2 ++ '.' :: (g3 ++ '.' :: g4))) =
        [g1, g2, g3, g4] := by
      rw [splitOnDot_append_dot _ _ (digitGroup_no_dot _ h1),
          splitOnDot_append_dot _ _ (digitGroup_no_dot _ h2),
          splitOnDot_append_dot _ _ (digitGroup_no_dot _ h3),
          splitOnDot_no_dot _ (digitGroup_no_dot _ h4)]
    unfold isIpHost
    rw [e]
    simp only [digitGroupB, Bool.and_eq_true, decide_eq_true_eq, List.all_eq_true]
    exact ⟨⟨⟨⟨⟨h1.1, h1.2.1⟩, h1.2.2⟩, ⟨⟨h2.1, h2.2.1⟩, h2.2.2⟩⟩,
      ⟨⟨h3.1, h3.2.1⟩, h3.2.2⟩⟩, ⟨⟨h4.1, h4.2.1⟩, h4.2.2⟩⟩

/-- First character of the TLD issue string is an S. -/
theorem tldIssues_head (domain : List Char) :
    ∀ s ∈ tldIssues domain, s.data.head? = some 'S' := by
  intro s hs
  unfold tldIssues at hs
  split at hs
  · have := List.mem_singleton.mp hs
    subst this
    rfl
  · cases hs

/-- First character of every pattern issue string is an S. -/
theorem patternIssue_head (p : UrlPattern) :
    ("Suspicious pattern detected: " ++ p.display).data.head? = some 'S' := by
  cases p <;> rfl

/-- First character of every security-term issue string is an S. -/
theorem termIssue_head (t : List Char) :
    ("Security term in domain: \"" ++ String.mk t ++ "\"").data.head? = some 'S' := rfl

/-- The IP issue string is not in a conditional singleton of a different
string. -/
theorem ipIssue_not_mem_ite (c : Prop) [Decidable c] (s : String)
    (hne : ipIssue ≠ s) : ipIssue ∉ (if c then [s] else []) := by
  split
  · simp [hne]
  · simp

/-- The IP issue string is never produced by the TLD check. -/
theorem ipIssue_not_mem_tldIssues (domain : List Char) :
    ipIssue ∉ tldIssues domain := by
  intro h
  have := tldIssues_head domain _ h
  exact absurd this (by decide)

/-- The IP issue string is never produced by the pattern loop. -/
theorem ipIssue_not_mem_patternIssues (domain path : List Char) :
    ipIssue ∉ patternIssues domain path := by
  intro h
  unfold patternIssues at h
  rcases List.mem_map.mp h with ⟨p, _, hp⟩
  have hhead := patternIssue_head p
  rw [hp] at hhead
  exact absurd hhead (by decide)

/-- The IP issue string is never produced by the security-term loop. -/
theorem ipIssue_not_mem_termIssues (domain : List Char) :
    ipIssue ∉ termIssues domain := by
  intro h
  unfold termIssues at h
  rcases List.mem_map.mp h with ⟨t, _, ht⟩
  have hhead := termIssue_head t
  rw [ht] at hhead
  exact absurd hhead (by decide)

/-- The IP issue appears in an analysis exactly when the dotted-quad
test on the hostname succeeds. -/
theorem ipIssue_mem_parsedIssues (raw : List Char) (p : UrlParts) :
    ipIssue ∈ parsedIssues raw p ↔ isIpHost p.hostname = true := by
  unfold parsedIssues
  simp only [List.mem_append]
  constructor
  · rintro (((((((hip | htld) | hlen) | hsub) | hhyph) | hpat) | hterm) | henc)
    · unfold ipIssues at hip
      split at hip
      · next hc => exact hc
      · cases hip
    · exact absurd htld (ipIssue_not_mem_tldIssues _)
    · exact absurd hlen (ipIssue_not_mem_ite _ _ (by decide))
    · exact absurd hsub (ipIssue_not_mem_ite _ _ (by decide))
    · exact absurd hhyph (ipIssue_not_mem_ite _ _ (by decide))
    · exact absurd hpat (ipIssue_not_mem_patternIssues _ _)
    · exact absurd hterm (ipIssue_not_mem_termIssues _)
    · exact absurd henc (ipIssue_not_mem_ite _ _ (by decide))
  · intro hip
    simp [ipIssues, hip]

/-- C10: the IP-address indicator of analyzeUrl fires exactly on hosts
of the textual form d.d.d.d with each d one to three decimal digits and
no range check on the group values; the numerically invalid quad
999.999.999.999 is scored as an IP hostname (+40 and the issue), and a
host not of that shape never receives the issue. -/
theorem ip_indicator_shape_c10 :
    (∀ h : List Char, isIpHost h = true ↔ IpShape h) ∧
    (∀ (raw : List Char) (p : UrlParts),
      ipIssue ∈ (analyzeUrl { raw := raw, parsed := some p }).issues ↔
        isIpHost p.hostname = true) ∧
    isIpHost "999.999.999.999".data = true ∧
    (analyzeUrl scenario999Url).score = 40 ∧
    (analyzeUrl scenario999Url).issues = [ipIssue] :=
  ⟨isIpHost_iff_ipShape, fun raw p => ipIssue_mem_parsedIssues raw p,
   by decide, by decide, by decide⟩

/-- Witness for ip_indicator_shape_c10: the shape characterisation
instantiated at the concrete quad 999.999.999.999. -/
theorem ip_indicator_shape_c10_witness :
    isIpHost "999.999.999.999".data = true :=
  (ip_indicator_shape_c10.1 _).mpr
    ⟨['9', '9', '9'], ['9', '9', '9'], ['9', '9', '9'], ['9', '9', '9'],
     by decide, ⟨by decide, by decide, by decide⟩, ⟨by decide, by decide, by decide⟩,
     ⟨by decide, by decide, by decide⟩, ⟨by decide, by decide, by decide⟩⟩

/-- C8: the history filter's same-domain test holds exactly when the two
hostnames are equal or one is a dot-delimited suffix of the other;
a.example.com and example.com match in both directions, while
notexample.com and example.com do not (the boundary is a dot, not raw
substring containment). -/
theorem domain_match_rule_c8 :
    (∀ a b : List Char, domainMatch a b = true ↔
      (a = b ∨ (∃ pre, pre ++ '.' :: b = a) ∨ (∃ pre, pre ++ '.' :: a = b))) ∧
    domainMatch "a.example.com".data "example.com".data = true ∧
    domainMatch "example.com".data "a.example.com".data = true ∧
    domainMatch "notexample.com".data "example.com".data = false ∧
    domainMatch "example.com".data "notexample.com".data = false := by
  refine ⟨?_, by decide, by decide, by decide, by decide⟩
  intro a b
  unfold domainMatch
  simp only [Bool.or_eq_true, beq_iff_eq, List.isSuffixOf_iff_suffix]
  rw [or_assoc]
  exact Iff.rfl

/-- A foldl of max stays below a bound that dominates the seed and every
element. -/
theorem foldl_max_le (bound : Int) :
    ∀ (l : List HistoryItem) (init : Int), init ≤ bound →
      (∀ it ∈ l, it.lastVisitTime ≤ bound) →
      l.foldl (fun acc it => max acc it.lastVisitTime) init ≤ bound := by
  intro l
  induction l with
  | nil =>
    intro init h0 _
    simpa using h0
  | cons x xs ih =>
    intro init h0 hall
    simp only [List.foldl_cons]
    apply ih
    · exact max_le h0 (hall x (List.mem_cons_self x xs))
    · intro it hit
      exact hall it (List.mem_cons_of_mem _ hit)

/-- C4: when at least one history item matches the domain, the returned
familiarity score equals min(visitCount, 20) * 2 plus
max(60 - daysSinceLastVisit * 2, 0), and whenever every visit time is at
most the current time the score lies in [0, 100]. -/
theorem familiarity_score_formula_c4 (domain : List Char) (items : List HistoryItem)
    (now : Int) (hne : matchingItems domain items ≠ []) :
    (checkBrowserHistory domain items now).familiarityScore =
      ((min (checkBrowserHistory domain items now).visitCount 20 : Nat) : Int) * 2 +
        max (60 - (checkBrowserHistory domain items now).daysSinceLastVisit * 2) 0 ∧
    ((∀ it ∈ items, it.lastVisitTime ≤ now) →
      0 ≤ (checkBrowserHistory domain items now).familiarityScore ∧
      (checkBrowserHistory domain items now).familiarityScore ≤ 100) := by
  obtain ⟨m, ms, hm⟩ := List.exists_cons_of_ne_nil hne
  unfold checkBrowserHistory
  rw [hm]
  simp only []
  constructor
  · by_cases hd : (now - ms.foldl (fun acc it => max acc it.lastVisitTime)
        m.lastVisitTime).fdiv 86400000 = 0
    · rw [hd]
      norm_num
    · rw [if_neg hd]
  · intro hb
    have hmem : ∀ it ∈ m :: ms, it.lastVisitTime ≤ now := by
      intro it hit
      have h1 : it ∈ matchingItems domain items := by rw [hm]; exact hit
      exact hb it (List.mem_of_mem_filter h1)
    have hmr : ms.foldl (fun acc it => max acc it.lastVisitTime) m.lastVisitTime ≤ now :=
      foldl_max_le now ms m.lastVisitTime (hmem m (List.mem_cons_self m ms))
        (fun it hit => hmem it (List.mem_cons_of_mem _ hit))
    have hd0 : 0 ≤ (now - ms.foldl (fun acc it => max acc it.lastVisitTime)
        m.lastVisitTime).fdiv 86400000 :=
      Int.fdiv_nonneg (by omega) (by norm_num)
    have hrec : 0 ≤ (if (now - ms.foldl (fun acc it => max acc it.lastVisitTime)
          m.lastVisitTime).fdiv 86400000 = 0 then (60 : Int)
        else max (60 - (now - ms.foldl (fun acc it => max acc it.lastVisitTime)
          m.lastVisitTime).fdiv 86400000 * 2) 0) ∧
        (if (now - ms.foldl (fun acc it => max acc it.lastVisitTime)
          m.lastVisitTime).fdiv 86400000 = 0 then (60 : Int)
        else max (60 - (now - ms.foldl (fun acc it => max acc it.lastVisitTime)
          m.lastVisitTime).fdiv 86400000 * 2) 0) ≤ 60 := by
      split
      · norm_num
      · constructor
        · exact le_max_right _ _
        · apply max_le _ (by norm_num)
          omega
    have hv : ((min (m :: ms).length 20 : Nat) : Int) ≤ 20 := by
      have := Nat.min_le_right (m :: ms).length 20
      omega
    have hv0 : (0 : Int) ≤ ((min (m :: ms).length 20 : Nat) : Int) := by positivity
    constructor
    · omega
    · omega

/-- Witness for familiarity_score_formula_c4 at a single visit to
example.com at time 0 observed at time 0. -/
theorem familiarity_score_formula_c4_witness :
    (checkBrowserHistory exampleDomain exampleItems 0).familiarityScore =
      ((min (checkBrowserHistory exampleDomain exampleItems 0).visitCount 20 : Nat) : Int) * 2 +
        max (60 - (checkBrowserHistory exampleDomain exampleItems 0).daysSinceLastVisit * 2) 0 ∧
    0 ≤ (checkBrowserHistory exampleDomain exampleItems 0).familiarityScore ∧
    (checkBrowserHistory exampleDomain exampleItems 0).familiarityScore ≤ 100 := by
  have h := familiarity_score_formula_c4 exampleDomain exampleItems 0 (by decide)
  exact ⟨h.1, h.2 (by decide)⟩

/-- C5: analyzing http://192.168.1.1/login yields score 50 = 40 + 10
with exactly the IP-address issue and the /login/ pattern issue, and
aggregating with any first-visit snapshot yields adjusted score 140 and
risk level HIGH. -/
theorem scenario_ip_login_c5 :
    (analyzeUrl scenario1Url).score = 50 ∧
    (analyzeUrl scenario1Url).issues =
      ["IP address used as hostname", "Suspicious pattern detected: /login/"] ∧
    (50 : Nat) = 40 + 10 ∧
    (∀ fam : FamiliaritySnapshot, fam.firstVisit = true →
      (analyzeUrlWithHistory scenario1Url fam).score = 140 ∧
      (analyzeUrlWithHistory scenario1Url fam).riskLevel = RiskLevel.HIGH) := by
  refine ⟨by decide, by decide, rfl, ?_⟩
  intro fam hfv
  have hadj : adjustedScore (analyzeUrl scenario1Url) fam = 140 := by
    have hsc : (analyzeUrl scenario1Url).score = 50 := by decide
    unfold adjustedScore
    rw [if_pos hfv, hsc]
    decide
  constructor
  · show adjustedScore (analyzeUrl scenario1Url) fam = 140
    exact hadj
  · show riskLevelHistory (adjustedScore (analyzeUrl scenario1Url) fam) = RiskLevel.HIGH
    rw [hadj]
    decide

/-- Witness for scenario_ip_login_c5 at a concrete first-visit
snapshot. -/
theorem scenario_ip_login_c5_witness :
    (analyzeUrlWithHistory scenario1Url famFirstVisit).score = 140 ∧
    (analyzeUrlWithHistory scenario1Url famFirstVisit).riskLevel = RiskLevel.HIGH :=
  scenario_ip_login_c5.2.2.2 famFirstVisit rfl

/-- C6: for a URL with host paypal-secure-login.xyz the TLD indicator
(+15), the multiple-hyphens indicator (+10), the /secure/, /login/ and
/paypal/ pattern indicators (+10 each) and the security term secure
(+5) all fire, and the score is their cumulative, non-deduplicated sum
60 (the /paypal/ pattern fires alongside the two listed patterns). -/
theorem scenario_paypal_domain_c6 :
    (analyzeUrl scenario5Url).issues =
      ["Suspicious TLD: .xyz", "Multiple hyphens in domain",
       "Suspicious pattern detected: /secure/", "Suspicious pattern detected: /login/",
       "Suspicious pattern detected: /paypal/",
       "Security term in domain: \"secure\""] ∧
    (analyzeUrl scenario5Url).score = 60 ∧
    (60 : Nat) = 15 + 10 + (10 + 10 + 10) + 5 :=
  ⟨by decide, by decide, rfl⟩

/-- C9: with one image whose alt text is Bank of America on the host
bankofamerica.com, the content analyzer still reports brand
impersonation, although the fully space-stripped brand name is
contained in the host: the source's replace(' ', '') removes only the
first space of the brand, so bank of america becomes the host-impossible
needle bankof america. -/
theorem brand_replace_space_bug_c9 :
    (analyzePageContent [] [bofaImage] "bankofamerica.com".data).brandImpersonation = true ∧
    (analyzePageContent [] [bofaImage] "bankofamerica.com".data).issues =
      ["Potential impersonation of: bank of america"] ∧
    includesSub "bankofamerica.com".data "bankofamerica".data = true ∧
    replaceFirstSpace "bank of america".data = "bankof america".data :=
  ⟨by decide, by decide, by decide, by decide⟩
